import Mathlib

/-!
# Verification of the ec-voice-ai call-session mediator

A shallow embedding of the parts of the ec-voice-ai TypeScript sources that
the specification's testable properties talk about:

* `src/utils/status-mapper.ts` — return eligibility decision table;
* `src/services/nextengine.ts` — phone normalization and the token/search
  request skeleton of the order-backend client;
* `src/handlers/incoming-call.ts` — TwiML builders and `escapeXml`;
* `src/handlers/media-stream.ts` together with
  `src/services/openai-realtime.ts` — the per-call mediator state
  (echo cooldown, cooldown timer, response-active flag) and the outputs
  emitted to the two sockets;
* the tool dispatch loop of `handleToolCall` / `sendToolResult`.

Strings that only flow through the code opaquely are kept as `String`;
strings that the code inspects character by character (phone numbers,
XML text) are embedded as `List Char`.  JavaScript timers are made
explicit: the set of currently armed timers is a list of
`(timer id, deadline)` pairs, `setTimeout` appends a fresh id and
`clearTimeout` filters it out, so "at most one timer" is a proved
property of the model rather than an assumption.
-/

namespace EcVoiceAi

/-! ## Data model (`src/types/index.ts`) -/

/-- Closed order-status enum (`OrderStatus` in `src/types/index.ts`). -/
inductive OrderStatus
  | pending
  | preparing
  | confirmed
  | shipped
  | delivered
  | cancelled
  | returned
deriving DecidableEq, Repr

/-- Return reason enum (`ReturnReason`). -/
inductive ReturnReason
  | defective
  | damaged
  | wrong_item
  | size_issue
  | image_different
  | other
deriving DecidableEq, Repr

/-- Product condition enum (`ProductCondition`). -/
inductive ProductCondition
  | unopened
  | opened
deriving DecidableEq, Repr

/-- The projection of the `Order` record that the return-eligibility
check reads (`order.totalAmount` is the only field it touches; the other
fields are carried opaquely). -/
structure Order where
  orderId : String
  totalAmount : Nat
  shippedDate : Option String
deriving DecidableEq, Repr

/-- Result record of `checkReturnEligibility` (`ReturnEligibility` in
`src/utils/status-mapper.ts`). -/
structure ReturnEligibility where
  eligible : Bool
  reason : String
  requiresHuman : Bool
deriving DecidableEq, Repr

/-! ## Return eligibility (`checkReturnEligibility`, status-mapper.ts) -/

/-- `checkReturnEligibility` from `src/utils/status-mapper.ts`, translated
guard for guard in source order. -/
def checkReturnEligibility (order : Order) (returnReason : ReturnReason)
    (condition : ProductCondition) (daysSinceDelivery : Nat) : ReturnEligibility :=
  if 10000 ≤ order.totalAmount then
    { eligible := false
      reason := "高額商品のため、担当者が対応いたします。"
      requiresHuman := true }
  else if 7 < daysSinceDelivery then
    { eligible := false
      reason := "到着から7日を過ぎておりまして、通常の返品受付期限を超えております。"
      requiresHuman := true }
  else if returnReason = .defective ∨ returnReason = .damaged ∨ returnReason = .wrong_item then
    { eligible := true
      reason := "返品を承ります。送料は当社負担でお送りいただけます。"
      requiresHuman := false }
  else if condition = .opened then
    { eligible := false
      reason := "開封済みの商品は、お客様都合での返品を承れない場合がございます。"
      requiresHuman := true }
  else
    { eligible := true
      reason := "返品を承ります。なお、送料はお客様負担となります。"
      requiresHuman := false }

/-! ## Phone normalization (`NextEngineService.normalizePhoneForSearch`) -/

/-- `String.prototype.startsWith`, on character lists: first argument is
the pattern, second the string. -/
def startsWithChars : List Char → List Char → Bool
  | [], _ => true
  | _ :: _, [] => false
  | p :: ps, c :: cs => p == c && startsWithChars ps cs

/-- The global dash-stripping replace applied in the fallback branch. -/
def removeDashes (l : List Char) : List Char :=
  l.filter (fun c => c ≠ '-')

/-- `normalizePhoneForSearch` from `src/services/nextengine.ts`:
`+81…` → `0…`; `81…` with length ≥ 11 → `0…`; otherwise strip dashes. -/
def normalizePhoneForSearch (phone : List Char) : List Char :=
  if startsWithChars ['+', '8', '1'] phone then
    '0' :: phone.drop 3
  else if startsWithChars ['8', '1'] phone ∧ 11 ≤ phone.length then
    '0' :: phone.drop 2
  else
    removeDashes phone

/-! ## TwiML builders and XML escaping (`src/handlers/incoming-call.ts`) -/

/-- One global single-character `String.prototype.replace`: every
occurrence of `c` is replaced by the list `rep`. -/
def replaceAllChar (c : Char) (rep : List Char) : List Char → List Char
  | [] => []
  | x :: xs => (if x = c then rep else [x]) ++ replaceAllChar c rep xs

/-- `escapeXml` from `src/handlers/incoming-call.ts`: the five global
replaces applied in source order (`&` first, then `<`, `>`, `"`, `'`). -/
def escapeXml (text : List Char) : List Char :=
  replaceAllChar '\'' "&apos;".toList
    (replaceAllChar '"' "&quot;".toList
      (replaceAllChar '>' "&gt;".toList
        (replaceAllChar '<' "&lt;".toList
          (replaceAllChar '&' "&amp;".toList text))))

/-- The optional `<Say>` element: `message ? sayWithEscape : ''`. -/
def sayElement (message : Option (List Char)) : List Char :=
  match message with
  | some msg => "<Say language=\"ja-JP\">".toList ++ escapeXml msg ++ "</Say>".toList
  | none => []

/-- `generateTransferTwiML` from `src/handlers/incoming-call.ts`: the
template literal with the say element and the raw transfer number
interpolated. -/
def generateTransferTwiML (transferNumber : List Char) (message : Option (List Char)) :
    List Char :=
  "<?xml version=\"1.0\" encoding=\"UTF-8\"?>\n<Response>\n  ".toList
    ++ sayElement message
    ++ "\n  <Dial timeout=\"30\" action=\"/call-status\">\n    <Number>".toList
    ++ transferNumber
    ++ "</Number>\n  </Dial>\n</Response>".toList

/-- `generateHoldTwiML` from `src/handlers/incoming-call.ts`. -/
def generateHoldTwiML (message : Option (List Char)) : List Char :=
  "<?xml version=\"1.0\" encoding=\"UTF-8\"?>\n<Response>\n  ".toList
    ++ sayElement message
    ++ "\n  <Play loop=\"10\">https://api.twilio.com/cowbell.mp3</Play>\n</Response>".toList

/-- Modelled from the spec: the transfer builder as the claim describes
it, with the transfer number also passed through `escapeXml`.  Only used
to compare against the builder actually in the source. -/
def claimedEscapedTransferTwiML (transferNumber : List Char) (message : Option (List Char)) :
    List Char :=
  generateTransferTwiML (escapeXml transferNumber) message

/-- Substring containment on character lists (decidable, used to witness
that an unescaped value survives verbatim in the produced document). -/
def containsSub (p : List Char) : List Char → Bool
  | [] => p.isEmpty
  | c :: cs => startsWithChars p (c :: cs) || containsSub p cs

/-! ## The per-call mediator (`src/handlers/media-stream.ts`)

`StreamState` mirrors the mutable fields of `StreamContext` plus the
parts of the runtime the handlers interact with: whether the OpenAI
socket is connected (`openaiSession.isConnected()`), whether the Twilio
socket is open (`ws.readyState === OPEN`), and the JavaScript timer
queue.  `step` executes one inbound event exactly as the corresponding
handler in `handleMediaStream` / `setupEventHandlers` does, returning
the successor state and the frames emitted to the two sockets. -/

/-- Frames the mediator writes to the OpenAI socket or the Twilio socket. -/
inductive Out
  | sendAudio (payload : String)
  | cancelResponse
  | itemCreate (callId : String) (output : String)
  | createResponse
  | twilioMedia (payload : String)
  | twilioMark (name : String)
  | twilioClear
deriving DecidableEq, Repr

/-- The mutable per-call state.  `echoCooldownTimer` is the timer handle
stored in the context field; `timers` is the set of armed (not yet fired,
not yet cleared) timers as `(id, deadline)` pairs; `nextId` supplies
fresh timer ids; `now` is the clock in milliseconds. -/
structure StreamState where
  connected : Bool
  twilioOpen : Bool
  isInitialized : Bool
  isResponseActive : Bool
  isEchoCooldown : Bool
  echoCooldownTimer : Option Nat
  timers : List (Nat × Nat)
  nextId : Nat
  now : Nat
deriving DecidableEq, Repr

/-- Inbound events the relevant handlers react to.  `timerFire id` is the
runtime invoking the callback of a still-armed timer; `initComplete` is
the tail of `initializeStream` (set `isInitialized`, set
`isResponseActive`, request the greeting response); `tick` advances the
clock. -/
inductive Ev
  | mediaFrame (payload : String)
  | markAudioComplete
  | responseCreated
  | responseDone
  | audioDelta (payload : String)
  | audioDone
  | speechStarted
  | timerFire (id : Nat)
  | initComplete
  | openaiConnect
  | openaiClose
  | tick (d : Nat)
deriving DecidableEq, Repr

/-- The state reached by `initializeStream` before `connect()` resolves:
all flags false, no timer armed (`media-stream.ts` lines 131–144). -/
def initState : StreamState :=
  { connected := false
    twilioOpen := true
    isInitialized := false
    isResponseActive := false
    isEchoCooldown := false
    echoCooldownTimer := none
    timers := []
    nextId := 0
    now := 0 }

/-- `clearTimeout` on the handle stored in the context (a no-op when the
handle is null). -/
def clearHeldTimer (s : StreamState) : List (Nat × Nat) :=
  match s.echoCooldownTimer with
  | some tid => s.timers.filter (fun p => p.1 ≠ tid)
  | none => s.timers

/-- One handler execution.  Each branch is the corresponding handler in
`media-stream.ts`, with `sendAudio` / `cancelResponse` /
`createResponse` applying the `isConnected()` guard from
`openai-realtime.ts` and the Twilio sends applying the
`readyState === OPEN` guard. -/
def step (s : StreamState) : Ev → StreamState × List Out
  | .mediaFrame p =>
      (s, if s.connected && s.isInitialized && !s.isEchoCooldown then [.sendAudio p] else [])
  | .markAudioComplete =>
      ({ s with
          isEchoCooldown := true,
          echoCooldownTimer := some s.nextId,
          timers := clearHeldTimer s ++ [(s.nextId, s.now + 400)],
          nextId := s.nextId + 1 }, [])
  | .responseCreated =>
      ({ s with isResponseActive := true }, [])
  | .responseDone =>
      ({ s with isResponseActive := false }, [])
  | .audioDelta p =>
      (match s.echoCooldownTimer with
        | some _ =>
            { s with
                timers := clearHeldTimer s,
                echoCooldownTimer := none,
                isEchoCooldown := false }
        | none => s,
       if s.twilioOpen then [.twilioMedia p] else [])
  | .audioDone =>
      (s, if s.twilioOpen then [.twilioMark "audio-complete"] else [])
  | .speechStarted =>
      (s, if s.isResponseActive then
            (if s.connected then [.cancelResponse] else [])
              ++ (if s.twilioOpen then [.twilioClear] else [])
          else [])
  | .timerFire tid =>
      (if s.timers.any (fun p => p.1 = tid) then
        { s with
            timers := s.timers.filter (fun p => p.1 ≠ tid),
            isEchoCooldown := false,
            echoCooldownTimer := none }
      else s, [])
  | .initComplete =>
      ({ s with isInitialized := true, isResponseActive := true },
       if s.connected then [.createResponse] else [])
  | .openaiConnect =>
      ({ s with connected := true }, [])
  | .openaiClose =>
      ({ s with connected := false }, [])
  | .tick d =>
      ({ s with now := s.now + d }, [])

/-- Run a list of events from a state, discarding outputs. -/
def run (s : StreamState) (evs : List Ev) : StreamState :=
  evs.foldl (fun s e => (step s e).1) s

/-- The timer bookkeeping invariant: the armed-timer set is empty when the
context holds no handle and is exactly the held timer otherwise, and the
echo-cooldown flag is only up while a timer is armed. -/
def TimerInv (s : StreamState) : Prop :=
  (s.echoCooldownTimer = none → s.timers = [])
  ∧ (∀ tid, s.echoCooldownTimer = some tid → ∃ d, s.timers = [(tid, d)])
  ∧ (s.isEchoCooldown = true → s.echoCooldownTimer ≠ none)

/-! ## Tool dispatch (`handleToolCall`, media-stream.ts; `executeTool`,
tools/index.ts; `sendToolResult`, openai-realtime.ts) -/

/-- Transfer priority (`TransferPriority`). -/
inductive TransferPriority
  | normal
  | high
  | urgent
deriving DecidableEq, Repr

/-- The values `executeTool` can return (`ToolExecutionResult` in
`tools/index.ts`): a plain string, a `RegisterReturnResult` record, or a
`TransferAction`.  `requiresTransfer` is optional in the source, hence
`Option Bool`. -/
inductive ToolExecutionResult
  | str (s : String)
  | registerRet (success : Bool) (message : String) (requiresTransfer : Option Bool)
  | transfer (reason : String) (summary : Option String) (priority : TransferPriority)
deriving DecidableEq, Repr

/-- How the awaited `executeTool` promise settles inside `handleToolCall`:
it either resolves with a result or throws. -/
inductive ToolOutcome
  | ok (r : ToolExecutionResult)
  | threw
deriving DecidableEq, Repr

/-- `isTransferAction` from `tools/index.ts`. -/
def isTransferAction : ToolExecutionResult → Bool
  | .transfer _ _ _ => true
  | _ => false

/-- `requiresHumanTransfer` from `tools/index.ts`: transfer actions, or an
object whose `requiresTransfer` property is present and `true`. -/
def requiresHumanTransfer (r : ToolExecutionResult) : Bool :=
  if isTransferAction r then true
  else match r with
    | .registerRet _ _ (some b) => b
    | _ => false

/-- `getTransferMessage` from `tools/transfer-to-human.ts`. -/
def getTransferMessage : TransferPriority → String
  | .urgent => "大変お待たせいたしました。至急担当者におつなぎいたします。少々お待ちください。"
  | .high => "担当者におつなぎいたします。少々お待ちください。"
  | .normal => "担当者におつなぎいたします。少々お待ちくださいませ。"

/-- The `'message' in result ? result.message : fallback` read in the
`requiresHumanTransfer` branch of `handleToolCall`. -/
def messageOf : ToolExecutionResult → String
  | .registerRet _ m _ => m
  | .transfer _ _ _ => "担当者におつなぎいたします。"
  | .str _ => "担当者におつなぎいたします。"

/-- `JSON.stringify` on a non-string result, reaching the final branch of
`handleToolCall` (field order as in the source records). -/
def jsonStringifyResult : ToolExecutionResult → String
  | .str s => s
  | .registerRet success m rt =>
      "\x7b\"success\":" ++ (if success then "true" else "false")
        ++ ",\"message\":\"" ++ m ++ "\""
        ++ (match rt with
            | some b => ",\"requiresTransfer\":" ++ (if b then "true" else "false")
            | none => "")
        ++ "\x7d"
  | .transfer reason _ _ => "\x7b\"action\":\"transfer\",\"reason\":\"" ++ reason ++ "\"\x7d"

/-- The priority inside a transfer action (only read on the transfer
branch). -/
def priorityOf : ToolExecutionResult → TransferPriority
  | .transfer _ _ p => p
  | _ => .normal

/-- `sendToolResult` from `openai-realtime.ts`: no-op when disconnected,
otherwise one `conversation.item.create` with the call id followed
immediately by `createResponse()`. -/
def sendToolResultOuts (connected : Bool) (callId : String) (output : String) : List Out :=
  if connected then [.itemCreate callId output, .createResponse] else []

/-- The frames `handleToolCall` (media-stream.ts lines 342–380) sends for
one `response.function_call_arguments.done` event, by dispatcher
outcome: transfer action, requires-transfer record, normal result, or a
thrown error caught and answered with the generic system-error string. -/
def handleToolCallOuts (connected : Bool) (callId : String) : ToolOutcome → List Out
  | .threw => sendToolResultOuts connected callId "システムエラーが発生しました。"
  | .ok r =>
      if isTransferAction r then
        sendToolResultOuts connected callId (getTransferMessage (priorityOf r))
      else if requiresHumanTransfer r then
        sendToolResultOuts connected callId (messageOf r)
      else
        match r with
        | .str s => sendToolResultOuts connected callId s
        | other => sendToolResultOuts connected callId (jsonStringifyResult other)

/-! ## Order-backend client request skeleton (`src/services/nextengine.ts`)

The I/O skeleton of `getAccessToken` / `refreshAccessToken` /
`searchOrders`: which HTTP requests go out, in which order, and what is
returned or thrown.  The backend's behaviour is a parameter (`NEEnv`);
an `Except.error` covers both a network failure and a
`result: "error"` body, since the source throws in both cases. -/

/-- Cached token state (`TokenInfo` in nextengine.ts). -/
structure TokenInfo where
  accessToken : String
  refreshToken : String
  expiresAt : Nat
deriving DecidableEq, Repr

/-- One HTTP request issued by the client. -/
inductive NEReq
  | tokenRefresh (refreshToken : String)
  | orderSearch (accessToken : String) (phone : Option String) (orderId : Option String)
      (limit : Nat)
deriving DecidableEq, Repr

/-- The backend as seen from one `searchOrders` call: how the token
endpoint and the search endpoint would answer, plus the configured
refresh token (`env.neRefreshToken`). -/
structure NEEnv where
  envRefreshToken : String
  refreshOutcome : Except String (String × String)
  searchOutcome : Except String (List String)
deriving Repr

/-- The refresh token sent to the token endpoint:
`this.tokenInfo?.refreshToken || env.neRefreshToken`. -/
def refreshTokenUsed (st : Option TokenInfo) (env : NEEnv) : String :=
  match st with
  | some t => if t.refreshToken = "" then env.envRefreshToken else t.refreshToken
  | none => env.envRefreshToken

/-- `refreshAccessToken`: one POST to the token endpoint; on success the
cache is replaced with an expiry 23 hours out, on failure the error is
rethrown and the cache left alone. -/
def refreshAccessTokenRun (st : Option TokenInfo) (now : Nat) (env : NEEnv) :
    List NEReq × Except String (Option TokenInfo) :=
  match env.refreshOutcome with
  | .error e => ([.tokenRefresh (refreshTokenUsed st env)], .error e)
  | .ok (acc, rt2) =>
      ([.tokenRefresh (refreshTokenUsed st env)],
        .ok (some ⟨acc, rt2, now + 23 * 60 * 60 * 1000⟩))

/-- `getAccessToken`: refresh iff the cache is absent or past expiry
(throw propagating), then return the cached access token. -/
def getAccessTokenRun (st : Option TokenInfo) (now : Nat) (env : NEEnv) :
    List NEReq × Except String (String × Option TokenInfo) :=
  if st.isNone ∨ (∃ t, st = some t ∧ t.expiresAt ≤ now) then
    ((refreshAccessTokenRun st now env).1,
      (refreshAccessTokenRun st now env).2.map fun st2 =>
        ((st2.map TokenInfo.accessToken).getD "", st2))
  else
    ([], .ok ((st.map TokenInfo.accessToken).getD "", st))

/-- `searchOrders`: acquire a token, then issue exactly one search POST;
a failing search throws to the caller (the `catch` logs and rethrows)
with no retry and no second refresh. -/
def searchOrdersRun (st : Option TokenInfo) (now : Nat) (env : NEEnv)
    (phone orderId : Option String) (limit : Option Nat) :
    List NEReq × Except String (List String) × Option TokenInfo :=
  match getAccessTokenRun st now env with
  | (reqs, .error e) => (reqs, .error e, st)
  | (reqs, .ok (tok, st2)) =>
      let reqs2 := reqs ++ [.orderSearch tok phone orderId (limit.getD 10)]
      match env.searchOutcome with
      | .error e => (reqs2, .error e, st2)
      | .ok rows => (reqs2, .ok rows, st2)

/-- Number of token-endpoint requests in a trace. -/
def countRefresh (reqs : List NEReq) : Nat :=
  reqs.countP fun r => match r with | .tokenRefresh _ => true | _ => false

/-- Number of search-endpoint requests in a trace. -/
def countSearch (reqs : List NEReq) : Nat :=
  reqs.countP fun r => match r with | .orderSearch _ _ _ _ => true | _ => false

/-- A fixed backend used in concrete runs: the token endpoint would
answer, but the search endpoint fails with a token-expired auth error. -/
def authFailEnv : NEEnv :=
  { envRefreshToken := "rtEnv"
    refreshOutcome := .ok ("tokB", "rtB")
    searchOutcome := .error "access token expired" }

/-! ## Customer-context decoding (`initializeStream`, media-stream.ts) -/

/-- The projection of `CustomerContext` that the decode fallback fixes
(`found` and `greeting`; the optional fields stay opaque). -/
structure CustomerContext where
  found : Bool
  customerName : Option String
  greeting : String
  error : Option Bool
deriving DecidableEq, Repr

/-- The fallback literal used both when the parameter is absent and when
decoding throws. -/
def fallbackContext : CustomerContext :=
  { found := false, customerName := none, greeting := "お電話ありがとうございます。", error := none }

/-- The `customerContext` decode in `initializeStream` (media-stream.ts
lines 122–129).  `parse` stands for `JSON.parse ∘ base64-decode`, with
`none` for a throw; the surrounding `try`/`catch` and the missing-param
default both produce `fallbackContext`. -/
def decodeCustomerContext (parse : String → Option CustomerContext)
    (param : Option String) : CustomerContext :=
  match param with
  | some raw =>
      match parse raw with
      | some ctx => ctx
      | none => fallbackContext
  | none => fallbackContext

/-! ## Claim theorems -/

/-- The invariant holds in the initial state. -/
theorem timerInv_initState : TimerInv initState := by
  refine ⟨fun _ => rfl, fun tid h => ?_, fun h => ?_⟩ <;> simp [initState] at h
theorem timerInv_step (s : StreamState) (e : Ev) (h : TimerInv s) :
    TimerInv (step s e).1 := by
  obtain ⟨h1, h2, h3⟩ := h
  cases e with
  | mediaFrame p => exact ⟨h1, h2, h3⟩
  | markAudioComplete =>
      refine ⟨by simp [step], fun tid htid => ⟨s.now + 400, ?_⟩, by simp [step]⟩
      simp only [step, Option.some.injEq] at htid ⊢
      subst htid
      cases ho : s.echoCooldownTimer with
      | none => simp [clearHeldTimer, ho, h1 ho]
      | some tid2 =>
          obtain ⟨d, hd⟩ := h2 tid2 ho
          simp [clearHeldTimer, ho, hd]
  | responseCreated => exact ⟨h1, h2, h3⟩
  | responseDone => exact ⟨h1, h2, h3⟩
  | audioDelta p =>
      cases ho : s.echoCooldownTimer with
      | none =>
          refine ⟨fun hn => ?_, fun tid htid => ?_, fun hc => ?_⟩
          · simp only [step, ho]
            exact h1 ho
          · simp only [step, ho] at htid
            exact absurd htid (by simp)
          · simp only [step, ho] at hc ⊢
            exact absurd ho (h3 hc)
      | some tid2 =>
          obtain ⟨d, hd⟩ := h2 tid2 ho
          refine ⟨fun _ => ?_, fun tid htid => ?_, fun hc => ?_⟩
          · simp [step, clearHeldTimer, ho, hd]
          · simp [step, ho] at htid
          · simp [step, ho] at hc
  | audioDone => exact ⟨h1, h2, h3⟩
  | speechStarted => exact ⟨h1, h2, h3⟩
  | timerFire tid =>
      by_cases hf : s.timers.any (fun p => p.1 = tid)
      · refine ⟨fun _ => ?_, fun tid2 htid2 => ?_, fun hc => ?_⟩ <;>
          simp only [step, if_pos hf] at *
        · cases ho : s.echoCooldownTimer with
          | none => simp [h1 ho]
          | some tid3 =>
              obtain ⟨d, hd⟩ := h2 tid3 ho
              rw [hd] at hf ⊢
              simp only [List.any_cons, List.any_nil, Bool.or_false,
                decide_eq_true_eq] at hf
              simp [hf]
        · exact absurd htid2 (by simp)
        · exact absurd hc (by simp)
      · rw [show (step s (Ev.timerFire tid)).1 = s by simp [step, hf]]
        exact ⟨h1, h2, h3⟩
  | initComplete => exact ⟨h1, h2, h3⟩
  | openaiConnect => exact ⟨h1, h2, h3⟩
  | openaiClose => exact ⟨h1, h2, h3⟩
  | tick d => exact ⟨h1, h2, h3⟩

theorem timerInv_run (s : StreamState) (evs : List Ev) (h : TimerInv s) :
    TimerInv (run s evs) := by
  induction evs generalizing s with
  | nil => exact h
  | cons e rest ih => exact ih _ (timerInv_step s e h)

theorem timerInv_reachable (evs : List Ev) : TimerInv (run initState evs) :=
  timerInv_run initState evs timerInv_initState

/-- C1: while the session's echo-cooldown flag is true, an inbound carrier
media frame is never forwarded to the LLM (`sendAudio` is not invoked),
and a frame is forwarded only when the flag is false at its arrival. -/
theorem media_gated_by_echo_cooldown (evs : List Ev) (p : String) :
    ((run initState evs).isEchoCooldown = true →
      Out.sendAudio p ∉ (step (run initState evs) (Ev.mediaFrame p)).2)
    ∧ (Out.sendAudio p ∈ (step (run initState evs) (Ev.mediaFrame p)).2 →
      (run initState evs).isEchoCooldown = false) := by
  constructor
  · intro hc
    simp [step, hc]
  · intro hm
    cases hb : (run initState evs).isEchoCooldown
    · rfl
    · rw [show (step (run initState evs) (Ev.mediaFrame p)).2 = [] by
        simp [step, hb]] at hm
      exact absurd hm (List.not_mem_nil _)

theorem media_gated_by_echo_cooldown_witness :
    (run initState [Ev.openaiConnect, Ev.initComplete, Ev.markAudioComplete]).isEchoCooldown = true
    ∧ Out.sendAudio "QUJD" ∉
        (step (run initState [Ev.openaiConnect, Ev.initComplete, Ev.markAudioComplete])
          (Ev.mediaFrame "QUJD")).2 :=
  ⟨by decide,
   (media_gated_by_echo_cooldown [Ev.openaiConnect, Ev.initComplete, Ev.markAudioComplete]
      "QUJD").1 (by decide)⟩

/-- C2: on `input_audio_buffer.speech_started` with `responseActive=true`
(and both sockets up, as they are while events are being delivered), the
handler emits exactly one `response.cancel` to the LLM and exactly one
`clear` to the carrier; with `responseActive=false` it emits nothing. -/
theorem speech_started_barge_in (evs : List Ev) :
    ((run initState evs).isResponseActive = true →
      (run initState evs).connected = true →
      (run initState evs).twilioOpen = true →
      (step (run initState evs) Ev.speechStarted).2 = [Out.cancelResponse, Out.twilioClear])
    ∧ ((run initState evs).isResponseActive = false →
      (step (run initState evs) Ev.speechStarted).2 = []) := by
  constructor
  · intro ha hc ht
    simp [step, ha, hc, ht]
  · intro ha
    simp [step, ha]

theorem speech_started_barge_in_witness :
    (step (run initState [Ev.openaiConnect, Ev.initComplete]) Ev.speechStarted).2
        = [Out.cancelResponse, Out.twilioClear]
    ∧ (step (run initState []) Ev.speechStarted).2 = [] :=
  ⟨(speech_started_barge_in [Ev.openaiConnect, Ev.initComplete]).1
      (by decide) (by decide) (by decide),
   (speech_started_barge_in []).2 (by decide)⟩

/-- C4: if `response.audio.delta` arrives while `echoCooldown=true`, then
immediately after the handler runs the flag is false and no cooldown
timer is armed.  The proof goes through the auxiliary reachability
invariant `TimerInv` (flag up implies a non-null timer handle), since the
handler clears the flag only inside the timer-non-null branch. -/
theorem audio_delta_preempts_cooldown (evs : List Ev) (p : String)
    (hc : (run initState evs).isEchoCooldown = true) :
    (step (run initState evs) (Ev.audioDelta p)).1.isEchoCooldown = false
    ∧ (step (run initState evs) (Ev.audioDelta p)).1.echoCooldownTimer = none
    ∧ (step (run initState evs) (Ev.audioDelta p)).1.timers = [] := by
  obtain ⟨h1, h2, h3⟩ := timerInv_reachable evs
  cases ho : (run initState evs).echoCooldownTimer with
  | none => exact absurd ho (h3 hc)
  | some tid =>
      obtain ⟨d, hd⟩ := h2 tid ho
      refine ⟨?_, ?_, ?_⟩ <;> simp [step, ho, clearHeldTimer, hd]

theorem audio_delta_preempts_cooldown_witness :
    (run initState [Ev.markAudioComplete]).isEchoCooldown = true
    ∧ (step (run initState [Ev.markAudioComplete]) (Ev.audioDelta "QUJD")).1.isEchoCooldown
        = false :=
  ⟨by decide,
   (audio_delta_preempts_cooldown [Ev.markAudioComplete] "QUJD" (by decide)).1⟩

/-- C5: after every inbound `mark{audio-complete}`, exactly one cooldown
timer is armed, its deadline 400 ms after the arrival clock, the flag is
true and the context holds the fresh handle; and in every reachable state
at most one cooldown timer is armed (arming replaces the prior one). -/
theorem mark_arms_single_cooldown_timer (evs : List Ev) :
    (step (run initState evs) Ev.markAudioComplete).1.timers
        = [((run initState evs).nextId, (run initState evs).now + 400)]
    ∧ (step (run initState evs) Ev.markAudioComplete).1.isEchoCooldown = true
    ∧ (step (run initState evs) Ev.markAudioComplete).1.echoCooldownTimer
        = some (run initState evs).nextId
    ∧ (run initState evs).timers.length ≤ 1 := by
  obtain ⟨h1, h2, h3⟩ := timerInv_reachable evs
  have hclear : clearHeldTimer (run initState evs) = [] := by
    cases ho : (run initState evs).echoCooldownTimer with
    | none => simp [clearHeldTimer, ho, h1 ho]
    | some tid =>
        obtain ⟨d, hd⟩ := h2 tid ho
        simp [clearHeldTimer, ho, hd]
  refine ⟨?_, by simp [step], by simp [step], ?_⟩
  · simp [step, hclear]
  · cases ho : (run initState evs).echoCooldownTimer with
    | none => simp [h1 ho]
    | some tid =>
        obtain ⟨d, hd⟩ := h2 tid ho
        simp [hd]

/-- C3: for every `response.function_call_arguments.done` event with
correlation id `callId`, on every dispatcher outcome (plain string,
requires-transfer record, handoff action, thrown error), `handleToolCall`
sends exactly one `function_call_output` item carrying `callId` and the
next `response.create` is triggered only after it — the emitted frames
are always exactly `[itemCreate callId output, createResponse]`. -/
theorem tool_result_exactly_once_before_response (callId : String) (o : ToolOutcome) :
    ∃ output, handleToolCallOuts true callId o
      = [Out.itemCreate callId output, Out.createResponse] := by
  cases o with
  | threw => exact ⟨_, rfl⟩
  | ok r =>
      cases r with
      | str s => exact ⟨s, rfl⟩
      | registerRet success m rt =>
          cases rt with
          | none => exact ⟨_, rfl⟩
          | some b => cases b <;> exact ⟨_, rfl⟩
      | transfer reason summary priority => exact ⟨_, rfl⟩

/-- C6: `checkReturnEligibility` realizes the documented decision table
with the documented precedence: high value beats everything, then the
7-day limit, then seller-fault reasons (seller pays), then opened
condition, then the buyer-pays default. -/
theorem return_eligibility_decision_table (order : Order) (r : ReturnReason)
    (c : ProductCondition) (days : Nat) :
    (10000 ≤ order.totalAmount →
      checkReturnEligibility order r c days
        = ⟨false, "高額商品のため、担当者が対応いたします。", true⟩)
    ∧ (order.totalAmount < 10000 → 7 < days →
      checkReturnEligibility order r c days
        = ⟨false, "到着から7日を過ぎておりまして、通常の返品受付期限を超えております。", true⟩)
    ∧ (order.totalAmount < 10000 → days ≤ 7 →
      (r = .defective ∨ r = .damaged ∨ r = .wrong_item) →
      checkReturnEligibility order r c days
        = ⟨true, "返品を承ります。送料は当社負担でお送りいただけます。", false⟩)
    ∧ (order.totalAmount < 10000 → days ≤ 7 →
      ¬(r = .defective ∨ r = .damaged ∨ r = .wrong_item) → c = .opened →
      checkReturnEligibility order r c days
        = ⟨false, "開封済みの商品は、お客様都合での返品を承れない場合がございます。", true⟩)
    ∧ (order.totalAmount < 10000 → days ≤ 7 →
      ¬(r = .defective ∨ r = .damaged ∨ r = .wrong_item) → c = .unopened →
      checkReturnEligibility order r c days
        = ⟨true, "返品を承ります。なお、送料はお客様負担となります。", false⟩) := by
  refine ⟨fun h1 => ?_, fun h1 h2 => ?_, fun h1 h2 h3 => ?_,
    fun h1 h2 h3 h4 => ?_, fun h1 h2 h3 h4 => ?_⟩
  · simp [checkReturnEligibility, h1]
  · simp [checkReturnEligibility, Nat.not_le.mpr h1, h2]
  · simp [checkReturnEligibility, Nat.not_le.mpr h1, Nat.not_lt.mpr h2, h3]
  · subst h4
    simp [checkReturnEligibility, Nat.not_le.mpr h1, Nat.not_lt.mpr h2, h3]
  · subst h4
    simp [checkReturnEligibility, Nat.not_le.mpr h1, Nat.not_lt.mpr h2, h3]

theorem return_eligibility_decision_table_witness :
    (10000 ≤ (15000 : Nat))
    ∧ checkReturnEligibility ⟨"R-42", 15000, none⟩ .size_issue .unopened 0
        = ⟨false, "高額商品のため、担当者が対応いたします。", true⟩
    ∧ checkReturnEligibility ⟨"R-43", 3200, none⟩ .size_issue .unopened 0
        = ⟨true, "返品を承ります。なお、送料はお客様負担となります。", false⟩ :=
  ⟨by decide,
   (return_eligibility_decision_table ⟨"R-42", 15000, none⟩ .size_issue .unopened 0).1
     (by decide),
   (return_eligibility_decision_table ⟨"R-43", 3200, none⟩ .size_issue .unopened 0).2.2.2.2
     (by decide) (by decide) (by decide) rfl⟩

/-- A dash-free list is left unchanged by the dash-stripping replace. -/
theorem removeDashes_eq_self (l : List Char) (h : '-' ∉ l) : removeDashes l = l := by
  unfold removeDashes
  rw [List.filter_eq_self]
  intro a ha
  simp only [ne_eq, decide_eq_true_eq]
  intro heq
  exact h (heq ▸ ha)

/-- C7, counterexample: `normalize("+81-1")` keeps the dash (so not every
dash is removed) and normalizing a second time changes the result (so
`normalize` is not idempotent). -/
theorem normalize_phone_counterexample :
    (normalizePhoneForSearch "+81-1".toList).contains '-' = true
    ∧ normalizePhoneForSearch (normalizePhoneForSearch "+81-1".toList)
        ≠ normalizePhoneForSearch "+81-1".toList := by
  constructor
  · decide
  · decide

/-- C7, amended: the two country-code rewrites hold unconditionally;
dashes are removed exactly when neither prefix rewrite fires; and
`normalize` is idempotent on dash-free inputs (on inputs with dashes the
prefix branches can keep dashes, as the counterexample shows). -/
theorem normalize_phone_laws (rest x : List Char) :
    (normalizePhoneForSearch ('+' :: '8' :: '1' :: rest) = '0' :: rest)
    ∧ (11 ≤ ('8' :: '1' :: rest).length →
        normalizePhoneForSearch ('8' :: '1' :: rest) = '0' :: rest)
    ∧ (startsWithChars ['+', '8', '1'] x = false →
        ¬(startsWithChars ['8', '1'] x ∧ 11 ≤ x.length) →
        normalizePhoneForSearch x = removeDashes x)
    ∧ ('-' ∉ x →
        normalizePhoneForSearch (normalizePhoneForSearch x) = normalizePhoneForSearch x) := by
  refine ⟨?_, fun hlen => ?_, fun hp hq => ?_, fun hnd => ?_⟩
  · simp [normalizePhoneForSearch, startsWithChars]
  · rw [normalizePhoneForSearch, if_neg (by simp [startsWithChars]),
      if_pos ⟨by simp [startsWithChars], hlen⟩]
    rfl
  · rw [normalizePhoneForSearch, if_neg (by simp [hp]), if_neg hq]
  · by_cases ha : startsWithChars ['+', '8', '1'] x = true
    · have hx : normalizePhoneForSearch x = '0' :: x.drop 3 := by
        rw [normalizePhoneForSearch, if_pos ha]
      rw [hx, normalizePhoneForSearch, if_neg (by simp [startsWithChars]),
        if_neg (by simp [startsWithChars])]
      exact removeDashes_eq_self _ (by
        simp only [List.mem_cons, not_or]
        exact ⟨by decide, fun hm => hnd (List.mem_of_mem_drop hm)⟩)
    · by_cases hb : startsWithChars ['8', '1'] x ∧ 11 ≤ x.length
      · have hx : normalizePhoneForSearch x = '0' :: x.drop 2 := by
          rw [normalizePhoneForSearch, if_neg (by simp [ha]), if_pos hb]
        rw [hx, normalizePhoneForSearch, if_neg (by simp [startsWithChars]),
          if_neg (by simp [startsWithChars])]
        exact removeDashes_eq_self _ (by
          simp only [List.mem_cons, not_or]
          exact ⟨by decide, fun hm => hnd (List.mem_of_mem_drop hm)⟩)
      · have hx : normalizePhoneForSearch x = x := by
          rw [normalizePhoneForSearch, if_neg (by simp [ha]), if_neg hb]
          exact removeDashes_eq_self x hnd
        rw [hx, hx]

theorem normalize_phone_laws_witness :
    (11 ≤ ("815012345678".toList).length)
    ∧ normalizePhoneForSearch "815012345678".toList = "05012345678".toList
    ∧ normalizePhoneForSearch (normalizePhoneForSearch "0312345678".toList)
        = normalizePhoneForSearch "0312345678".toList :=
  ⟨by decide,
   (normalize_phone_laws "5012345678".toList "x".toList).2.1 (by decide),
   (normalize_phone_laws [] "0312345678".toList).2.2.2 (by decide)⟩

/-- Membership after a single-character replace: every character of the
result comes from the replacement list or is an untouched original. -/
theorem mem_replaceAllChar {x c : Char} {rep t : List Char}
    (hx : x ∈ replaceAllChar c rep t) : x ∈ rep ∨ (x ∈ t ∧ x ≠ c) := by
  induction t with
  | nil => simp [replaceAllChar] at hx
  | cons y ys ih =>
      simp only [replaceAllChar, List.mem_append] at hx
      rcases hx with h | h
      · by_cases hyc : y = c
        · rw [if_pos hyc] at h
          exact .inl h
        · rw [if_neg hyc] at h
          simp only [List.mem_singleton] at h
          subst h
          exact .inr ⟨List.mem_cons_self _ _, hyc⟩
      · rcases ih h with h2 | ⟨h2, h3⟩
        · exact .inl h2
        · exact .inr ⟨List.mem_cons_of_mem _ h2, h3⟩

theorem not_mem_replaceAllChar (x c : Char) (rep t : List Char)
    (hrep : x ∉ rep) (h : x = c ∨ x ∉ t) : x ∉ replaceAllChar c rep t := by
  intro hx
  rcases mem_replaceAllChar hx with h1 | ⟨h2, h3⟩
  · exact hrep h1
  · rcases h with rfl | h4
    · exact h3 rfl
    · exact h4 h2

theorem escapeXml_no_raw_lt (m : List Char) : '<' ∉ escapeXml m := by
  unfold escapeXml
  refine not_mem_replaceAllChar _ _ _ _ (by decide) (.inr ?_)
  refine not_mem_replaceAllChar _ _ _ _ (by decide) (.inr ?_)
  refine not_mem_replaceAllChar _ _ _ _ (by decide) (.inr ?_)
  exact not_mem_replaceAllChar _ _ _ _ (by decide) (.inl rfl)

theorem escapeXml_no_raw_gt (m : List Char) : '>' ∉ escapeXml m := by
  unfold escapeXml
  refine not_mem_replaceAllChar _ _ _ _ (by decide) (.inr ?_)
  refine not_mem_replaceAllChar _ _ _ _ (by decide) (.inr ?_)
  exact not_mem_replaceAllChar _ _ _ _ (by decide) (.inl rfl)

theorem escapeXml_no_raw_quot (m : List Char) : '"' ∉ escapeXml m := by
  unfold escapeXml
  refine not_mem_replaceAllChar _ _ _ _ (by decide) (.inr ?_)
  exact not_mem_replaceAllChar _ _ _ _ (by decide) (.inl rfl)

theorem escapeXml_no_raw_apos (m : List Char) : '\'' ∉ escapeXml m := by
  unfold escapeXml
  exact not_mem_replaceAllChar _ _ _ _ (by decide) (.inl rfl)

/-- A list starts with itself followed by anything. -/
theorem startsWithChars_append (p b : List Char) : startsWithChars p (p ++ b) = true := by
  induction p with
  | nil => rfl
  | cons c cs ih => simp [startsWithChars, ih]

theorem containsSub_of_startsWith (p l : List Char) (h : startsWithChars p l = true) :
    containsSub p l = true := by
  cases l with
  | nil =>
      cases p with
      | nil => rfl
      | cons c cs => simp [startsWithChars] at h
  | cons c cs => simp [containsSub, h]

theorem containsSub_append_left (p a rest : List Char) (h : containsSub p rest = true) :
    containsSub p (a ++ rest) = true := by
  induction a with
  | nil => simpa using h
  | cons c cs ih => simp [containsSub, ih]

/-- C8, counterexample: the transfer-TwiML builder interpolates the
transfer number without escaping — with number `"&"`, the document
differs from the claim's escaped rendering and contains the raw
`<Number>&</Number>`, not `<Number>&amp;</Number>`. -/
theorem transfer_number_unescaped_counterexample :
    generateTransferTwiML ['&'] none ≠ claimedEscapedTransferTwiML ['&'] none
    ∧ containsSub "<Number>&</Number>".toList (generateTransferTwiML ['&'] none) = true
    ∧ containsSub "<Number>&amp;</Number>".toList (generateTransferTwiML ['&'] none) = false := by
  refine ⟨by decide, by decide, by decide⟩

/-- C8, amended: the optional message is escaped in both builders — it is
interpolated only through `escapeXml`, whose output contains no raw `<`,
`>`, `"` or `'` and maps each of the five special characters to its
entity — while the transfer number is interpolated verbatim, unescaped,
into the transfer document. -/
theorem twiml_escapes_message_not_number (n m : List Char) :
    ((escapeXml m).all (fun c => c ≠ '<') = true)
    ∧ ((escapeXml m).all (fun c => c ≠ '>') = true)
    ∧ ((escapeXml m).all (fun c => c ≠ '"') = true)
    ∧ ((escapeXml m).all (fun c => c ≠ '\'') = true)
    ∧ escapeXml ['&'] = "&amp;".toList
    ∧ escapeXml ['<'] = "&lt;".toList
    ∧ escapeXml ['>'] = "&gt;".toList
    ∧ escapeXml ['"'] = "&quot;".toList
    ∧ escapeXml ['\''] = "&apos;".toList
    ∧ containsSub (escapeXml m) (generateTransferTwiML n (some m)) = true
    ∧ containsSub (escapeXml m) (generateHoldTwiML (some m)) = true
    ∧ containsSub n (generateTransferTwiML n (some m)) = true := by
  refine ⟨?_, ?_, ?_, ?_, by decide, by decide, by decide, by decide, by decide, ?_, ?_, ?_⟩
  · rw [List.all_eq_true]
    intro c hc
    simp only [ne_eq, decide_eq_true_eq]
    intro h
    exact escapeXml_no_raw_lt m (h ▸ hc)
  · rw [List.all_eq_true]
    intro c hc
    simp only [ne_eq, decide_eq_true_eq]
    intro h
    exact escapeXml_no_raw_gt m (h ▸ hc)
  · rw [List.all_eq_true]
    intro c hc
    simp only [ne_eq, decide_eq_true_eq]
    intro h
    exact escapeXml_no_raw_quot m (h ▸ hc)
  · rw [List.all_eq_true]
    intro c hc
    simp only [ne_eq, decide_eq_true_eq]
    intro h
    exact escapeXml_no_raw_apos m (h ▸ hc)
  · simp only [generateTransferTwiML, sayElement, List.append_assoc]
    exact containsSub_append_left _ _ _
      (containsSub_append_left _ _ _
        (containsSub_of_startsWith _ _ (startsWithChars_append _ _)))
  · simp only [generateHoldTwiML, sayElement, List.append_assoc]
    exact containsSub_append_left _ _ _
      (containsSub_append_left _ _ _
        (containsSub_of_startsWith _ _ (startsWithChars_append _ _)))
  · simp only [generateTransferTwiML, sayElement, List.append_assoc]
    exact containsSub_append_left _ _ _
      (containsSub_append_left _ _ _
        (containsSub_append_left _ _ _
          (containsSub_append_left _ _ _
            (containsSub_append_left _ _ _
              (containsSub_of_startsWith _ _ (startsWithChars_append _ _))))))

/-- The token-acquisition step issues no request or exactly one token
refresh. -/
theorem getAccessTokenRun_reqs (st : Option TokenInfo) (now : Nat) (env : NEEnv) :
    (getAccessTokenRun st now env).1 = []
    ∨ (getAccessTokenRun st now env).1 = [.tokenRefresh (refreshTokenUsed st env)] := by
  unfold getAccessTokenRun
  by_cases h : st.isNone ∨ (∃ t, st = some t ∧ t.expiresAt ≤ now)
  · rw [if_pos h]
    right
    unfold refreshAccessTokenRun
    cases env.refreshOutcome with
    | error e => rfl
    | ok p => rfl
  · rw [if_neg h]
    left
    rfl

/-- C9, counterexample: with a valid cached token, a search that fails
with an auth (token-expired) error produces exactly one search request,
no token refresh and no retried request — the error is thrown to the
caller directly, so the claimed refresh-once-retry-once behaviour does
not happen. -/
theorem auth_failure_not_retried_counterexample :
    (searchOrdersRun (some ⟨"tokA", "rtA", 1000⟩) 0 authFailEnv
        (some "09012345678") none none).1
      = [.orderSearch "tokA" (some "09012345678") none 10]
    ∧ countRefresh (searchOrdersRun (some ⟨"tokA", "rtA", 1000⟩) 0 authFailEnv
        (some "09012345678") none none).1 = 0
    ∧ countSearch (searchOrdersRun (some ⟨"tokA", "rtA", 1000⟩) 0 authFailEnv
        (some "09012345678") none none).1 = 1
    ∧ (searchOrdersRun (some ⟨"tokA", "rtA", 1000⟩) 0 authFailEnv
        (some "09012345678") none none).2.1 = .error "access token expired" := by
  refine ⟨?_, ?_, ?_, ?_⟩ <;> rfl

/-- C9, amended: one `searchOrders` call refreshes the token at most once
— and only before the request, when the cache is absent or past its
local expiry — issues at most one search request, and surfaces a search
failure (auth errors included) to the caller unchanged, with no retry of
either request. -/
theorem backend_refresh_before_request_no_retry (st : Option TokenInfo) (now : Nat)
    (env : NEEnv) (phone orderId : Option String) (limit : Option Nat) :
    countRefresh (searchOrdersRun st now env phone orderId limit).1 ≤ 1
    ∧ countSearch (searchOrdersRun st now env phone orderId limit).1 ≤ 1
    ∧ (∀ e, env.searchOutcome = .error e →
        countSearch (searchOrdersRun st now env phone orderId limit).1 = 1 →
        (searchOrdersRun st now env phone orderId limit).2.1 = .error e) := by
  cases hg : getAccessTokenRun st now env with
  | mk reqs res =>
      have hreqs : countRefresh reqs ≤ 1 ∧ countSearch reqs = 0 := by
        rcases getAccessTokenRun_reqs st now env with h | h <;> rw [hg] at h <;>
          simp only at h <;> subst h <;>
          simp [countRefresh, countSearch]
      cases res with
      | error e =>
          refine ⟨?_, ?_, fun e2 hs2 hcount => ?_⟩
          · simp only [searchOrdersRun, hg]
            exact hreqs.1
          · simp only [searchOrdersRun, hg]
            exact hreqs.2 ▸ Nat.zero_le 1
          · simp only [searchOrdersRun, hg] at hcount
            rw [hreqs.2] at hcount
            exact absurd hcount (by decide)
      | ok p =>
          obtain ⟨tok, st2⟩ := p
          cases hs : env.searchOutcome with
          | error e =>
              refine ⟨?_, ?_, fun e2 hs2 hcount => ?_⟩
              · simp only [searchOrdersRun, hg, hs]
                simpa [countRefresh, List.countP_append] using hreqs.1
              · simp only [searchOrdersRun, hg, hs]
                simp [countSearch, List.countP_append,
                  (by simpa [countSearch] using hreqs.2 : reqs.countP _ = 0)]
              · simp only [searchOrdersRun, hg, hs]
                cases hs2
                rfl
          | ok rows =>
              refine ⟨?_, ?_, fun e2 hs2 hcount => ?_⟩
              · simp only [searchOrdersRun, hg, hs]
                simpa [countRefresh, List.countP_append] using hreqs.1
              · simp only [searchOrdersRun, hg, hs]
                simp [countSearch, List.countP_append,
                  (by simpa [countSearch] using hreqs.2 : reqs.countP _ = 0)]
              · cases hs2

theorem backend_refresh_before_request_no_retry_witness :
    Except.error "access token expired" = (authFailEnv.searchOutcome)
    ∧ (searchOrdersRun (some ⟨"tokA", "rtA", 1000⟩) 0 authFailEnv
        (some "09012345678") none none).2.1 = .error "access token expired" :=
  ⟨rfl,
   (backend_refresh_before_request_no_retry (some ⟨"tokA", "rtA", 1000⟩) 0 authFailEnv
      (some "09012345678") none none).2.2 "access token expired" rfl rfl⟩

/-- C10: a missing `customerContext` parameter and a parameter whose
base64/JSON decode throws both yield the fixed fallback context
(`found=false`, neutral greeting) instead of failing the call; the
session is then initialized with that context like any other. -/
theorem context_decode_falls_back (parse : String → Option CustomerContext)
    (raw : String) (h : parse raw = none) :
    decodeCustomerContext parse none = fallbackContext
    ∧ decodeCustomerContext parse (some raw) = fallbackContext
    ∧ (decodeCustomerContext parse (some raw)).found = false
    ∧ (decodeCustomerContext parse (some raw)).greeting = "お電話ありがとうございます。" := by
  refine ⟨rfl, ?_, ?_, ?_⟩ <;> simp [decodeCustomerContext, h, fallbackContext]

theorem context_decode_falls_back_witness :
    decodeCustomerContext (fun _ => none) (some "%%%not-base64%%%") = fallbackContext :=
  (context_decode_falls_back (fun _ => none) "%%%not-base64%%%" rfl).2.1

end EcVoiceAi
